import Mathlib

/-!
Shallow embedding of the Flying Dust particle engine (Dust.Cloud, Dust.Speck,
Dust.Breeze from the JavaScript sources) together with theorems settling the
specification claims.

Modelling conventions:
* JS numbers are modelled as exact rationals (`ℚ`) in the particle/pool layer;
  the force-field (`Dust.Breeze`) layer needs `Real.sqrt`, so it is modelled
  over `ℝ`.
* Every call to `Math.random()` is threaded in explicitly as a parameter, so
  all theorems quantify over the random draws.
* `Date.now()` is threaded in explicitly as a `now : ℚ` parameter (JS
  milliseconds).
* JS `undefined` object fields are modelled with `Option`; `undefined <= 0`
  is `false` in JS, which the embedded `isDead` reproduces (`none ↦ false`).
* Fields that are irrational-valued in the source and are never read by any
  verified operation are omitted from the record and noted at the definition
  that would set them (`radius`, `flashAngle`, `flashRotateAngle` involve `π`
  and a real cube root and are consumed only by the renderer, which is out of
  scope of the spec's core).
-/

namespace Dust

/-- A 3-axis vector of JS numbers, modelled as exact rationals. -/
structure Vec3 where
  x : ℚ
  y : ℚ
  z : ℚ
deriving DecidableEq

/-- A 2-axis force vector (the x/y payloads handed to `Speck.setForce`). -/
structure Vec2 where
  x : ℚ
  y : ℚ
deriving DecidableEq

/-- One entry of a speck's `wave` queue: `{ time, power }` as pushed by
`Speck.setForce` (time is an absolute JS-milliseconds trigger instant). -/
structure WaveEntry where
  time : ℚ
  power : Vec2
deriving DecidableEq

/-- The `attributes` bag of a `Dust.Speck`.  A freshly constructed speck has
an empty bag (all fields `none`, JS `undefined`); `reset`/`generate` fill it.
The source also stores `radius`, `flashAngle`, `flashRotateAngle` (formulas
involving `π` and a cube root, read only by the renderer) and
`colorSaturation` (written only by the `color` method, which no claim
touches); those fields are omitted here. -/
structure Attrs where
  color : Option String
  position : Option Vec3
  life : Option ℚ
  lifeLeft : Option ℚ
  wieght : Option ℚ
  density : Option ℚ
  flashLifePart : Option ℚ
deriving DecidableEq

/-- The empty `attributes` object `\x7b\x7d`. -/
def emptyAttrs : Attrs :=
  { color := none, position := none, life := none, lifeLeft := none,
    wieght := none, density := none, flashLifePart := none }

/-- A `Dust.Speck`.  `gravity` is `0` for a fresh speck (JS `null`, which
coerces to `0` in the only arithmetic that reads it); `wave` and `force` are
likewise given their post-`reset` shapes for a fresh speck, with the JS
prototype placeholders never being read before `reset` on any verified code
path. -/
structure Speck where
  attributes : Attrs
  inertia : Vec3
  force : Vec3
  gravity : ℚ
  wave : List WaveEntry
  start : ℚ
deriving DecidableEq

/-- A speck as produced by `new Dust.Speck()` with no options: `initialize`
does nothing, so nothing is set. -/
def freshSpeck : Speck :=
  { attributes := emptyAttrs, inertia := ⟨0, 0, 0⟩, force := ⟨0, 0, 0⟩,
    gravity := 0, wave := [], start := 0 }

namespace Speck

/-- `basics.minLife`. -/
def minLife : ℚ := 3

/-- `basics.maxLife`. -/
def maxLife : ℚ := 5

/-- `basics.minDensity`. -/
def minDensity : ℚ := 1/5

/-- `basics.maxDensity`. -/
def maxDensity : ℚ := 1

/-- `basics.minWeight`. -/
def minWeight : ℚ := 1/2

/-- `basics.maxWeight`. -/
def maxWeight : ℚ := 5

/-- `basics.fallFactor`. -/
def fallFactor : ℚ := 700

/-- `basics.startInertiaFactor`. -/
def startInertiaFactor : ℚ := 10

/-- `basics.inertiaFallback`. -/
def inertiaFallback : ℚ := 1/2

/-- `basics.flashTime`. -/
def flashTime : ℚ := 2/5

/-- `basics.waveLag` (seconds; multiplied by 1000 where the source does). -/
def waveLag : ℚ := 9/20

/-- `basics.wavePrecision`. -/
def wavePrecision : ℚ := 1/60

/-- `defaults.color`. -/
def defaultColor : String := "#a74599"

/-- `isDead()`: `this.attributes.lifeLeft <= 0`.  For a fresh speck the field
is `undefined` and the JS comparison yields `false`. -/
def isDead (s : Speck) : Bool :=
  match s.attributes.lifeLeft with
  | some l => decide (l ≤ 0)
  | none => false

/-- `shortenLife()`: clamp `lifeLeft` down to `flashTime` when it exceeds it
(`undefined > 0.4` is `false` in JS, so a fresh speck is untouched). -/
def shortenLife (s : Speck) : Speck :=
  match s.attributes.lifeLeft with
  | some l =>
      if flashTime < l then
        { s with attributes := { s.attributes with lifeLeft := some flashTime } }
      else s
  | none => s

/-- `setForce(direct, back)` at JS time `now` (milliseconds): push the back
force onto the wave queue with trigger time `now + waveLag*1000`; if the
earliest queued entry's trigger time is before `now + wavePrecision*1000`,
shift it off and add its power into `direct`; store the result in
`force.x`/`force.y` (`force.z` untouched). -/
def setForce (now : ℚ) (direct back : Vec2) (s : Speck) : Speck :=
  let wave1 := s.wave ++ [⟨now + waveLag * 1000, back⟩]
  match wave1 with
  | [] =>
      { s with
        wave := wave1
        force := { s.force with x := direct.x, y := direct.y } }
  | w0 :: rest =>
      if w0.time < now + wavePrecision * 1000 then
        { s with
          wave := rest
          force := { s.force with x := direct.x + w0.power.x, y := direct.y + w0.power.y } }
      else
        { s with
          wave := wave1
          force := { s.force with x := direct.x, y := direct.y } }

/-- `fly(dt)`: subtract `dt` from `lifeLeft`; if dead, stop.  Otherwise set
the flash progress near end of life, add gravity to `force.y`, damp inertia,
add `force*dt` to inertia, reset forces and displace the position by
`inertia*dt`.  A `none` (`undefined`) `lifeLeft` stays `none` and, as in JS
(`NaN <= 0` is `false`), does not trigger the dead early-return. -/
def fly (dt : ℚ) (s : Speck) : Speck :=
  let att1 := { s.attributes with lifeLeft := s.attributes.lifeLeft.map (· - dt) }
  if (match att1.lifeLeft with | some l => decide (l ≤ 0) | none => false) then
    { s with attributes := att1 }
  else
    let att2 :=
      match att1.lifeLeft with
      | some l =>
          if l ≤ flashTime then { att1 with flashLifePart := some (1 - l / flashTime) }
          else att1
      | none => att1
    let f : Vec3 := { s.force with y := s.force.y + s.gravity }
    let damp : ℚ → ℚ := fun v => (if v < 0 then -1 else 1) * (|v| - |v * inertiaFallback * dt|)
    let inertia1 : Vec3 :=
      ⟨damp s.inertia.x + f.x * dt, damp s.inertia.y + f.y * dt, damp s.inertia.z + f.z * dt⟩
    let newPos := att2.position.map
      (fun p => ⟨p.x + inertia1.x * dt, p.y + inertia1.y * dt, p.z + inertia1.z * dt⟩)
    let att3 := { att2 with position := newPos }
    { s with attributes := att3, inertia := inertia1, force := ⟨0, 0, 0⟩ }

end Speck

/-- The options object handed to `Speck.reset` (`position`, `inertia`,
`color` are the keys the callers ever put in it). -/
structure ResetOptions where
  position : Option Vec3
  inertia : Option Vec3
  color : Option String
deriving DecidableEq

/-- The random draws consumed by `Speck.generate` (the draws for the omitted
renderer-only fields `flashAngle`/`flashRotateAngle` are dropped with them). -/
structure GenRands where
  rLife : ℚ
  rWieght : ℚ
  rDensity : ℚ
deriving DecidableEq

/-- The random draws consumed by `Speck.reset` (three for the fallback random
inertia, plus the `generate` draws). -/
structure ResetRands where
  rInX : ℚ
  rInY : ℚ
  rInZ : ℚ
  gen : GenRands
deriving DecidableEq

namespace Speck

/-- `_extend(\x7b\x7d, v)` on an inertia vector: a fresh per-axis copy. -/
def extendVec (v : Vec3) : Vec3 := ⟨v.x, v.y, v.z⟩

/-- `generate()`: derive life span, weight, density and the gravity constant
from fresh uniform draws; `force.y` is assigned the gravity constant.  The
source also derives `flashAngle`, `flashRotateAngle` and `radius` here
(formulas involving `π` and a cube root, renderer-only); those omitted fields
are the only difference from the source. -/
def generate (r : GenRands) (s : Speck) : Speck :=
  let life := r.rLife * (maxLife - minLife) + minLife
  let wieght := r.rWieght * (maxWeight - minWeight) + minWeight
  let density := r.rDensity * (maxDensity - minDensity) + minDensity
  let gravity := fallFactor * density
  let att := { s.attributes with life := some life, lifeLeft := some life, wieght := some wieght, density := some density }
  { s with
    attributes := att
    gravity := gravity
    force := { s.force with y := gravity } }

/-- `reset(options)` at JS time `now`: clear the attribute bag, wave queue and
forces, stamp the start time, take the caller's inertia (as a fresh per-axis
copy, deleting the key from the caller's options object — modelled by
returning the mutated options alongside the speck) or sample a random one,
merge the remaining options over the defaults, then `generate`. -/
def reset (now : ℚ) (r : ResetRands) (options : ResetOptions) (s : Speck) :
    Speck × ResetOptions :=
  let s1 :=
    { s with
      attributes := emptyAttrs
      wave := ([] : List WaveEntry)
      force := (⟨0, 0, 0⟩ : Vec3)
      start := now }
  let p :=
    match options.inertia with
    | some v => (extendVec v, { options with inertia := none })
    | none =>
        (⟨startInertiaFactor * (r.rInX - 1/2) * 2,
          startInertiaFactor * (r.rInY - 1/2) * 2,
          startInertiaFactor * (r.rInZ - 1/2) * 2⟩, options)
  let options2 := p.2
  let attrs : Attrs :=
    { emptyAttrs with
      color := some (options2.color.getD defaultColor)
      position := options2.position }
  (generate r.gen { s1 with inertia := p.1, attributes := attrs }, options2)

end Speck

/-! ### The particle pool (`Dust.Cloud`) -/

/-- The origin sides configured for spawn templates (`throwFrom`); the source
branches on exactly these three string values. -/
inductive ThrowFrom where
  | bottom
  | lowSides
  | upSides
deriving DecidableEq

/-- One entry of `this.throw`: a spawn template `color / inertiaFactor / from`
(the JS key `from` is a Lean keyword, hence `fromSide`). -/
structure ThrowTemplate where
  color : String
  inertiaFactor : ℚ
  fromSide : ThrowFrom
deriving DecidableEq

/-- The `Dust.Cloud` options consumed by the embedded operations. -/
structure CloudOptions where
  poolSize : ℕ
  specks : ℚ
  throwRate : ℚ
  maxLag : ℚ
  maxToDelete : ℚ
deriving DecidableEq

/-- `viewPortSize`. -/
structure ViewPort where
  width : ℚ
  height : ℚ
deriving DecidableEq

/-- The `Dust.Cloud` state: the pool of specks, the live count, the spawn
template table and the construction-time options. -/
structure Cloud where
  options : CloudOptions
  viewPortSize : ViewPort
  activeSpecks : ℕ
  specks : List Speck
  throw : String → Option ThrowTemplate

/-- Random draws of one `generateThrowDirection` call: the result of the one
`_gaussSimplified(random)` evaluation (abstracted as an input because the
transform uses `exp` and `π`; no claim depends on its value), the two
`Math.random() < 0.5` sign draws in source order, and the draw inside
`spread = 0.3*Math.random() + 0.2`. -/
structure ThrowRands where
  gauss : ℚ
  sign1 : Bool
  sign2 : Bool
  rSpread : ℚ
deriving DecidableEq

/-- Randomness for one iteration of the `throwSpecks` loop. -/
structure SpawnRands where
  throwR : ThrowRands
  resetR : ResetRands
deriving DecidableEq

/-- JS `cond ? -1 : +1` for a `Math.random() < 0.5` draw. -/
def sgn (b : Bool) : ℚ := if b then -1 else 1

/-- `generateThrowDirection(type)`: build the reset options (position, inertia,
color) from the template for `type`; an unknown type returns the empty object
`\x7b\x7d`.  Mirrors the three `params.from` branches of the source; the
`_gaussSimplified` value is the abstracted draw `r.gauss`. -/
def generateThrowDirection (vp : ViewPort) (params? : Option ThrowTemplate)
    (r : ThrowRands) : ResetOptions :=
  match params? with
  | none => { position := none, inertia := none, color := none }
  | some params =>
      let maxX := vp.width
      let maxY := vp.height
      let maxZ := vp.width
      let spread := 3/10 * r.rSpread + 1/5
      let posZ := maxZ / 2 * r.gauss
      match params.fromSide with
      | ThrowFrom.bottom =>
          let posY := maxY / 2
          let inY := - (maxY / 2) * params.inertiaFactor
          let inX := sgn r.sign2 * inY * spread
          { position := some ⟨maxX * sgn r.sign1 * r.gauss, posY, posZ⟩,
            inertia := some ⟨inX, inY, 0⟩, color := some params.color }
      | ThrowFrom.lowSides =>
          let posX := sgn r.sign1 * (maxX / 2)
          let inX := (if posX < 0 then 1 else -1) * (maxX / 2) * params.inertiaFactor
          let inY := sgn r.sign2 * inX * spread
          { position := some ⟨posX, maxY / 2 * r.gauss, posZ⟩,
            inertia := some ⟨inX, inY, 0⟩, color := some params.color }
      | ThrowFrom.upSides =>
          let posX := sgn r.sign1 * (maxX / 2)
          let inX := (if posX < 0 then 1 else -1) * (maxX / 2) * params.inertiaFactor
          let inY := sgn r.sign2 * inX * spread
          { position := some ⟨posX, - (maxY / 2) * r.gauss, posZ⟩,
            inertia := some ⟨inX, inY, 0⟩, color := some params.color }

/-- A directly computable natural ceiling for `ℚ` (proved equal to `⌈q⌉₊`
below); used for the structural fuel bounds so that concrete pool states
evaluate inside the kernel. -/
def qCeilNat (q : ℚ) : ℕ := (q.num.toNat + q.den - 1) / q.den

/-- The loop of `throwSpecks`: starting at counter `i`, while `i < num` and
the slot `specks[active + i]` exists, reincarnate that slot and continue; the
return value is the final counter (the number of iterations when started at
`0`) together with the updated pool.  `active` is the `activeSpecks` value at
entry, which the source does not update until after the loop.  The recursion
is made structural by also threading `fuel`, an upper bound on the remaining
iterations; callers pass `⌈num⌉₊`, which keeps `fuel = ⌈num⌉₊ - i`
throughout, so the `fuel = 0` arm is only reached when the `i < num` guard
would fail anyway and the JS loop is reproduced exactly. -/
def throwSpecksLoop (now : ℚ) (rf : ℕ → SpawnRands) (tpl : Option ThrowTemplate)
    (vp : ViewPort) (num : ℚ) (active : ℕ) :
    ℕ → ℕ → List Speck → ℕ × List Speck
  | 0, i, specks => (i, specks)
  | fuel + 1, i, specks =>
      if (i : ℚ) < num then
        if active + i < specks.length then
          throwSpecksLoop now rf tpl vp num active fuel (i + 1)
            (specks.set (active + i)
              (Speck.reset now (rf i).resetR (generateThrowDirection vp tpl (rf i).throwR)
                (specks.getD (active + i) freshSpeck)).1)
        else (i, specks)
      else (i, specks)

/-- `throwSpecks(type, rate)`: run the loop with `num = rate * throwRate` and
add the number of completed iterations to `activeSpecks`. -/
def Cloud.throwSpecks (type : String) (rate : ℚ) (now : ℚ) (rf : ℕ → SpawnRands)
    (c : Cloud) : Cloud :=
  let num := rate * c.options.throwRate
  let r := throwSpecksLoop now rf (c.throw type) c.viewPortSize num c.activeSpecks
    (qCeilNat num) 0 c.specks
  { c with specks := r.2, activeSpecks := c.activeSpecks + r.1 }

/-- Random draws of one `generateSpot()` call: the three `_gaussSimplified`
values (abstracted, as in `ThrowRands`) and the two sign draws. -/
structure SpotRands where
  gauss1 : ℚ
  gauss2 : ℚ
  gauss3 : ℚ
  sign1 : Bool
  sign2 : Bool
deriving DecidableEq

/-- `generateSpot()`: a random position concentrated near the viewport
centre. -/
def generateSpot (vp : ViewPort) (r : SpotRands) : Vec3 :=
  ⟨vp.width * sgn r.sign1 * r.gauss1,
   vp.height * sgn r.sign2 * r.gauss2,
   vp.width / 2 * r.gauss3⟩

/-- Randomness for one iteration of the revive loop of `fill`. -/
structure FillRands where
  spot : SpotRands
  resetR : ResetRands
deriving DecidableEq

/-- The revive loop of `fill`: while `c < options.specks` and
`specks[activeSpecks + c]` exists, reset `specks[c]` at a generated spot; the
return value is the final counter and the updated pool.  Structural via the
same sufficient `fuel = ⌈numSpecks⌉₊ - c` bound as `throwSpecksLoop`. -/
def fillLoop (now : ℚ) (rf : ℕ → FillRands) (vp : ViewPort) (numSpecks : ℚ)
    (active : ℕ) : ℕ → ℕ → List Speck → ℕ × List Speck
  | 0, c, specks => (c, specks)
  | fuel + 1, c, specks =>
      if (c : ℚ) < numSpecks then
        if active + c < specks.length then
          fillLoop now rf vp numSpecks active fuel (c + 1)
            (specks.set c
              (Speck.reset now (rf c).resetR
                { position := some (generateSpot vp (rf c).spot), inertia := none, color := none }
                (specks.getD c freshSpeck)).1)
        else (c, specks)
      else (c, specks)

/-- Construction plus `fill()`: push `poolSize` fresh specks, revive
`options.specks` of them, and add the revived count to `activeSpecks`
(which is `0` at construction).  This is the pool-relevant part of
`initialize`; the renderer, music and breeze wiring it also performs touch no
pool state. -/
def mkCloud (opts : CloudOptions) (vp : ViewPort) (tpls : String → Option ThrowTemplate)
    (now : ℚ) (rf : ℕ → FillRands) : Cloud :=
  let specks0 := List.replicate opts.poolSize freshSpeck
  let r := fillLoop now rf vp opts.specks 0 (qCeilNat opts.specks) 0 specks0
  { options := opts, viewPortSize := vp, activeSpecks := 0 + r.1, specks := r.2, throw := tpls }

/-- JS array access `specks[q]` for a JS-number index `q`: defined exactly
when `q` is a non-negative integer below the length (a fractional or negative
`q` looks up a property such as `"0.5"`, which is `undefined`). -/
def jsIndexValid (len : ℕ) (q : ℚ) : Prop :=
  q.den = 1 ∧ 0 ≤ q.num ∧ q.num.toNat < len

instance (len : ℕ) (q : ℚ) : Decidable (jsIndexValid len q) := by
  unfold jsIndexValid
  infer_instance

/-- The loop of `_deleteSpecks(num)`: runs `i = 0, 1, ...` while `i < num`,
but reads and shortens `specks[num]` — the *same* slot every iteration — and
breaks when that slot is `undefined`.  Structural via the same sufficient
`fuel = ⌈num⌉₊ - i` bound as `throwSpecksLoop`. -/
def deleteSpecksLoop (num : ℚ) : ℕ → ℕ → List Speck → List Speck
  | 0, _, specks => specks
  | fuel + 1, i, specks =>
      if (i : ℚ) < num then
        if jsIndexValid specks.length num then
          deleteSpecksLoop num fuel (i + 1)
            (specks.set num.num.toNat (Speck.shortenLife (specks.getD num.num.toNat freshSpeck)))
        else specks
      else specks

/-- `_deleteSpecks(num)`. -/
def Cloud.deleteSpecks (num : ℚ) (c : Cloud) : Cloud :=
  { c with specks := deleteSpecksLoop num (qCeilNat num) 0 c.specks }

/-- The number the lag-shedding branch of `_animate` hands to
`_deleteSpecks`: `activeSpecks * ((dt - maxLag)/maxLag)`, clamped from above
by `activeSpecks * maxToDelete`. -/
def Cloud.shedCount (dt : ℚ) (c : Cloud) : ℚ :=
  let n0 := (c.activeSpecks : ℚ) * ((dt - c.options.maxLag) / c.options.maxLag)
  if (c.activeSpecks : ℚ) * c.options.maxToDelete < n0 then
    (c.activeSpecks : ℚ) * c.options.maxToDelete
  else n0

/-- The lag-shedding pass at the top of `_animate`: when `dt >= maxLag`,
call `_deleteSpecks` with the clamped overload count. -/
def Cloud.shedPass (dt : ℚ) (c : Cloud) : Cloud :=
  if c.options.maxLag ≤ dt then Cloud.deleteSpecks (Cloud.shedCount dt c) c else c

/-- A breeze as the per-speck animation loop sees it: `Breeze.apply(speck)`
performs exactly one `speck.setForce(direct, back)` call (dust-breeze.js,
`apply`), whose `now` stamp and force vectors depend on the speck, the stored
breeze powers and fresh random draws; the pool-level theorems quantify over
arbitrary such functions, which subsumes the real-valued forces the `Breeze`
embedding below computes. -/
def BreezeApp : Type := Speck → ℚ × Vec2 × Vec2

/-- Apply one breeze to a speck: the `setForce` call of `Breeze.apply`. -/
def applyBreeze (b : BreezeApp) (s : Speck) : Speck :=
  Speck.setForce (b s).1 (b s).2.1 (b s).2.2 s

/-- `for(j = 0; j < lenB; j++) breezes[j].apply(speck)`. -/
def applyBreezes (bs : List BreezeApp) (s : Speck) : Speck :=
  bs.foldl (fun t b => applyBreeze b t) s

/-- The per-speck animation loop of `_animate`: for `i` from `0` while
`i < activeSpecks`, apply every breeze, `fly(dt)`, and on death swap the speck
with the one at `activeSpecks - 1`, decrement the live count and re-examine
the same index.  Returns the updated pool and live count.  `active - i`
drops by exactly one on every iteration (both on death and on advance), so
threading `fuel = active - i` (callers pass `active` with `i = 0`) makes the
recursion structural with the `fuel = 0` arm reached only when `i < active`
already fails, reproducing the JS loop exactly. -/
def animateLoop (bs : List BreezeApp) (dt : ℚ) :
    ℕ → ℕ → ℕ → List Speck → List Speck × ℕ
  | 0, _, active, specks => (specks, active)
  | fuel + 1, i, active, specks =>
      if i < active then
        if Speck.isDead (Speck.fly dt (applyBreezes bs (specks.getD i freshSpeck))) then
          animateLoop bs dt fuel i (active - 1)
            ((specks.set i (specks.getD (active - 1) freshSpeck)).set (active - 1)
              (Speck.fly dt (applyBreezes bs (specks.getD i freshSpeck))))
        else
          animateLoop bs dt fuel (i + 1) active
            (specks.set i (Speck.fly dt (applyBreezes bs (specks.getD i freshSpeck))))
      else (specks, active)

/-- One `_animate` pass over the pool state (`step(dt)` of the spec): the
lag-shedding pass followed by the per-speck loop.  The music dispatch that
`_animate` performs first only raises `throwSpecks`/breeze-power/color calls,
which the reachability relation models as separate steps, and the renderer
only reads; neither is pool state. -/
def Cloud.animateStep (bs : List BreezeApp) (dt : ℚ) (c : Cloud) : Cloud :=
  let c1 := Cloud.shedPass dt c
  let r := animateLoop bs dt c1.activeSpecks 0 c1.activeSpecks c1.specks
  { c1 with specks := r.1, activeSpecks := r.2 }

/-- Pool states reachable from construction/fill under any interleaving of
spawn batches and animation steps. -/
inductive Reach : Cloud → Prop where
  | fillInit : ∀ opts vp tpls now rf, Reach (mkCloud opts vp tpls now rf)
  | throwStep : ∀ c type rate now rf, Reach c →
      Reach (Cloud.throwSpecks type rate now rf c)
  | animStep : ∀ c bs dt, Reach c → Reach (Cloud.animateStep bs dt c)

/-! ### The force field (`Dust.Breeze`)

The breeze arithmetic involves `Math.sqrt`, so this layer is embedded over
`ℝ` (with `Real.sqrt`); the random draw of `setPower` and the random sign of
the turbulence branch of `_findForce` are threaded in as parameters. -/

/-- The two axes a breeze can own (`this.direction`). -/
inductive Axis where
  | x
  | y
deriving DecidableEq

/-- `attributes.type`: the four origin sides. -/
inductive Side where
  | up
  | down
  | left
  | right
deriving DecidableEq

/-- A 2-axis vector of JS numbers in the real-valued breeze layer. -/
structure Vec2R where
  x : ℝ
  y : ℝ

/-- Select an axis component (`power[axis]` in the source). -/
def Vec2R.get (v : Vec2R) (a : Axis) : ℝ :=
  match a with
  | Axis.x => v.x
  | Axis.y => v.y

/-- The `attributes` of a `Dust.Breeze` that the verified operations read. -/
structure BreezeAttrs where
  btype : Side
  power : Vec2R
  musicFactor : ℝ
  waveSpreadMin : ℝ
  waveSpreadMax : ℝ

/-- View-port metrics (`this.view`). -/
structure BreezeView where
  h : ℝ
  w : ℝ
  halfH : ℝ
  halfW : ℝ

/-- A `Dust.Breeze`: `direction` is `x` exactly for the `left`/`right` types
(set once in `initialize`); `backPower` is the stored delayed-rebound power. -/
structure Breeze where
  attributes : BreezeAttrs
  direction : Axis
  backPower : Vec2R
  view : BreezeView

/-- `setPower(overall)` with random draw `rand`: `force = overall*musicFactor`;
a random fraction in `[waveSpreadMin, waveSpreadMax)` of the force becomes the
`spread`; the primary axis keeps the full `force` as power (the orthogonal
axis zero), while `backPower` gets `force - spread` on the primary axis and
`spread` on the orthogonal one. -/
noncomputable def Breeze.setPower (overall rand : ℝ) (b : Breeze) : Breeze :=
  let force := overall * b.attributes.musicFactor
  let spread := force * (rand * (b.attributes.waveSpreadMax - b.attributes.waveSpreadMin) +
    b.attributes.waveSpreadMin)
  let backForce : Vec2R :=
    ⟨if b.direction = Axis.x then force - spread else spread,
     if b.direction = Axis.y then force - spread else spread⟩
  let power : Vec2R :=
    ⟨if b.direction = Axis.x then force else 0,
     if b.direction = Axis.y then force else 0⟩
  { b with attributes := { b.attributes with power := power }, backPower := backForce }

/-- `_findDistance(axis, speck)` from the speck's position coordinate on that
axis; `none` is the JS `null` of the non-matching type/axis combinations
(which `apply` only ever feeds to the unused orthogonal branch of
`_findForce`, where JS coerces it to `0`). -/
def Breeze.findDistance (b : Breeze) (axis : Axis) (posX posY : ℝ) : Option ℝ :=
  match axis with
  | Axis.y =>
      match b.attributes.btype with
      | Side.up => some (b.view.halfH - posY)
      | Side.down => some (b.view.halfH + posY)
      | _ => none
  | Axis.x =>
      match b.attributes.btype with
      | Side.right => some (b.view.halfW - posX)
      | Side.left => some (b.view.halfW + posX)
      | _ => none

/-- The `direct`/`back` pair `_findForce` returns for one axis. -/
structure ForcePair where
  direct : ℝ
  back : ℝ

/-- `_findForce(axis, distance, full)` with the random turbulence sign drawn
as `randSign`: clamp the distance at `0`; on the breeze's own axis compute the
attenuation `k = sqrt(|distance/full - 1|)` while the distance is short of
`full` (else `k` keeps its initial value `1`), flip its sign for `up`/`left`
origins, and scale the stored powers; on the orthogonal axis emit the
back-power with a random sign. -/
noncomputable def Breeze.findForce (b : Breeze) (axis : Axis) (distance0 full : ℝ)
    (randSign : Bool) : ForcePair :=
  let distance := if distance0 < 0 then 0 else distance0
  if b.direction = axis then
    let k0 : ℝ := if distance < full then Real.sqrt |distance / full - 1| else 1
    let k : ℝ := if b.attributes.btype = Side.up ∨ b.attributes.btype = Side.left then -k0 else k0
    { direct := k * (b.attributes.power.get axis),
      back := (if k < 0 then -1 else 1) * k * (b.backPower.get axis) }
  else
    { direct := 0, back := (if randSign then -1 else 1) * (b.backPower.get axis) }

/-- The pair of force vectors `apply(speck)` hands to `speck.setForce`, from
the speck's x/y position: per axis, `_findForce` of the (possibly `null`,
coerced to `0`) `_findDistance` against the full span of the view-port. -/
noncomputable def Breeze.applyForces (b : Breeze) (posX posY : ℝ) (randX randY : Bool) :
    Vec2R × Vec2R :=
  let fx := b.findForce Axis.x ((b.findDistance Axis.x posX posY).getD 0) (b.view.halfW * 2) randX
  let fy := b.findForce Axis.y ((b.findDistance Axis.y posX posY).getD 0) (b.view.halfH * 2) randY
  (⟨fx.direct, fy.direct⟩, ⟨fx.back, fy.back⟩)

/-! ### Concrete sample inputs for witnesses and counterexamples -/

/-- Zero random draws for spawn-loop iterations. -/
def sampleSpawnRands : ℕ → SpawnRands := fun _ => ⟨⟨0, false, false, 0⟩, ⟨0, 0, 0, ⟨0, 0, 0⟩⟩⟩

/-- Zero random draws for fill-loop iterations. -/
def sampleFillRands : ℕ → FillRands := fun _ => ⟨⟨0, 0, 0, false, false⟩, ⟨0, 0, 0, ⟨0, 0, 0⟩⟩⟩

/-- A one-slot pool, empty, with one registered spawn template. -/
def sampleCloudFree : Cloud :=
  { options := { poolSize := 1, specks := 0, throwRate := 1, maxLag := 3/100, maxToDelete := 1/20 },
    viewPortSize := ⟨100, 100⟩, activeSpecks := 0, specks := [freshSpeck],
    throw := fun g => if g = ("bitBass") then some ⟨("#fff"), 1/2, ThrowFrom.bottom⟩ else none }

/-- A one-slot pool, empty, with no registered spawn templates. -/
def sampleCloudNoTpl : Cloud :=
  { options := { poolSize := 1, specks := 0, throwRate := 1, maxLag := 3/100, maxToDelete := 1/20 },
    viewPortSize := ⟨100, 100⟩, activeSpecks := 0, specks := [freshSpeck],
    throw := fun _ => none }

/-- A live speck with 4 s of its 5 s life left, at the origin. -/
def sampleSpeckAlive : Speck :=
  { freshSpeck with
    attributes := { emptyAttrs with life := some 5, lifeLeft := some 4, position := some ⟨0, 0, 0⟩ } }

/-- A pool of 1000 such live specks (Scenario D of the spec). -/
def sampleCloud1000 : Cloud :=
  { options := { poolSize := 1000, specks := 0, throwRate := 1, maxLag := 3/100, maxToDelete := 1/20 },
    viewPortSize := ⟨100, 100⟩, activeSpecks := 1000,
    specks := List.replicate 1000 sampleSpeckAlive, throw := fun _ => none }

/-- A one-speck live pool. -/
def sampleCloudAlive : Cloud :=
  { options := { poolSize := 1, specks := 0, throwRate := 1, maxLag := 3/100, maxToDelete := 1/20 },
    viewPortSize := ⟨100, 100⟩, activeSpecks := 1, specks := [sampleSpeckAlive],
    throw := fun _ => none }

/-- Scenario B's force field: origin `up`, primary `power.y = 100`, zero
back power, on a viewport of half-height 1 (span 2). -/
noncomputable def sampleBreezeUpAttrs : BreezeAttrs :=
  { btype := Side.up
    power := ⟨0, 100⟩
    musicFactor := 4
    waveSpreadMin := 1/5
    waveSpreadMax := 1/2 }

noncomputable def sampleBreezeUp : Breeze :=
  { attributes := sampleBreezeUpAttrs
    direction := Axis.y
    backPower := ⟨0, 0⟩
    view := { h := 2, w := 2, halfH := 1, halfW := 1 } }

/-- The force field driven by the bass channel: direction `y`, music factor 4,
spread range [0.2, 0.5] (the source defaults). -/
noncomputable def sampleBreezeYAttrs : BreezeAttrs :=
  { btype := Side.up
    power := ⟨10, 30⟩
    musicFactor := 4
    waveSpreadMin := 1/5
    waveSpreadMax := 1/2 }

noncomputable def sampleBreezeY : Breeze :=
  { attributes := sampleBreezeYAttrs
    direction := Axis.y
    backPower := ⟨0, 0⟩
    view := { h := 2, w := 2, halfH := 1, halfW := 1 } }

/-! ### Helper lemmas -/

theorem qCeilNat_eq (q : ℚ) : qCeilNat q = ⌈q⌉₊ := by
  unfold qCeilNat
  have hd : 0 < q.den := q.den_pos
  rcases le_or_lt q 0 with hq | hq
  · have h1 : q.num ≤ 0 := Rat.num_nonpos.mpr hq
    have h2 : q.num.toNat = 0 := Int.toNat_of_nonpos h1
    rw [h2, Nat.ceil_eq_zero.mpr hq]
    exact Nat.div_eq_of_lt (by omega)
  · have hnum : 0 < q.num := Rat.num_pos.mpr hq
    have hm' : ((q.num.toNat : ℤ)) = q.num := Int.toNat_of_nonneg hnum.le
    have hm1 : 1 ≤ q.num.toNat := by omega
    set m := q.num.toNat with hmdef
    set d := q.den with hddef
    set k := (m + d - 1) / d with hkdef
    have hdm : d * k + (m + d - 1) % d = m + d - 1 := Nat.div_add_mod (m + d - 1) d
    have hmod : (m + d - 1) % d < d := Nat.mod_lt _ hd
    have hge : m ≤ d * k := by omega
    have hk1 : 1 ≤ k := (Nat.one_le_div_iff hd).mpr (by omega)
    have hlt : d * (k - 1) < m := by
      have hrw : d * (k - 1) = d * k - d := by rw [Nat.mul_sub, Nat.mul_one]
      omega
    have hge' : m ≤ k * d := by rw [Nat.mul_comm]; exact hge
    have hlt' : (k - 1) * d < m := by rw [Nat.mul_comm]; exact hlt
    have hq_eq : q = (m : ℚ) / (d : ℚ) := by
      rw [show ((m : ℚ)) = ((q.num : ℤ) : ℚ) by exact_mod_cast hm']
      exact (Rat.num_div_den q).symm
    have hdq : (0 : ℚ) < (d : ℚ) := by exact_mod_cast hd
    have hle : q ≤ ((k : ℕ) : ℚ) := by
      rw [hq_eq, div_le_iff₀ hdq]
      exact_mod_cast hge'
    have hgt : (((k - 1 : ℕ)) : ℚ) < q := by
      rw [hq_eq, lt_div_iff₀ hdq]
      exact_mod_cast hlt'
    have hub2 : ⌈q⌉₊ ≤ k := Nat.ceil_le.mpr hle
    have hlb2 : k - 1 < ⌈q⌉₊ := Nat.lt_ceil.mpr hgt
    omega

theorem getD_set_self {α : Type} (l : List α) (i : ℕ) (a d : α) (h : i < l.length) :
    (l.set i a).getD i d = a := by
  simp [List.getD, List.getElem?_set, h]

theorem getD_set_ne {α : Type} (l : List α) (i j : ℕ) (a d : α) (h : i ≠ j) :
    (l.set i a).getD j d = l.getD j d := by
  simp [List.getD, List.getElem?_set, h]

theorem setForce_attributes (now : ℚ) (d b : Vec2) (s : Speck) :
    (Speck.setForce now d b s).attributes = s.attributes := by
  unfold Speck.setForce
  dsimp only
  split
  · rfl
  · split <;> rfl

theorem applyBreeze_attributes (b : BreezeApp) (s : Speck) :
    (applyBreeze b s).attributes = s.attributes := by
  unfold applyBreeze
  exact setForce_attributes _ _ _ _

theorem applyBreezes_attributes (bs : List BreezeApp) (s : Speck) :
    (applyBreezes bs s).attributes = s.attributes := by
  induction bs generalizing s with
  | nil => rfl
  | cons b bs ih =>
      show (applyBreezes bs (applyBreeze b s)).attributes = s.attributes
      rw [ih, applyBreeze_attributes]

theorem fly_lifeLeft (dt : ℚ) (s : Speck) :
    (Speck.fly dt s).attributes.lifeLeft = s.attributes.lifeLeft.map (· - dt) := by
  unfold Speck.fly
  dsimp only
  split
  · rfl
  · split
    · split <;> rfl
    · rfl

theorem fly_of_dead (dt : ℚ) (s : Speck) (l : ℚ) (hl : s.attributes.lifeLeft = some l)
    (hd : l - dt ≤ 0) :
    Speck.fly dt s = { s with attributes := { s.attributes with lifeLeft := some (l - dt) } } := by
  unfold Speck.fly
  rw [hl]
  simp [hd]

theorem isDead_some (s : Speck) (l : ℚ) (hl : s.attributes.lifeLeft = some l) :
    Speck.isDead s = decide (l ≤ 0) := by
  unfold Speck.isDead
  rw [hl]

/-- The `throwSpecks` loop started at counter `i ≤ min(⌈num⌉, freeSlots)`
terminates with counter exactly `min(⌈num⌉, freeSlots)` and preserves the
pool length. -/
theorem throwSpecksLoop_spec (now : ℚ) (rf : ℕ → SpawnRands) (tpl : Option ThrowTemplate)
    (vp : ViewPort) (num : ℚ) (active : ℕ) :
    ∀ fuel i specks, ⌈num⌉₊ - i ≤ fuel → i ≤ min ⌈num⌉₊ (specks.length - active) →
      (throwSpecksLoop now rf tpl vp num active fuel i specks).1 =
        min ⌈num⌉₊ (specks.length - active) ∧
      (throwSpecksLoop now rf tpl vp num active fuel i specks).2.length = specks.length := by
  intro fuel
  induction fuel with
  | zero =>
      intro i specks hn hi
      have hceil : ⌈num⌉₊ ≤ i := by omega
      unfold throwSpecksLoop
      exact ⟨by simp only; omega, rfl⟩
  | succ n ih =>
      intro i specks hn hi
      by_cases hlt : (i : ℚ) < num
      · have hiceil : i < ⌈num⌉₊ := Nat.lt_ceil.mpr hlt
        by_cases h2 : active + i < specks.length
        · unfold throwSpecksLoop
          rw [if_pos hlt, if_pos h2]
          have hlen2 : (specks.set (active + i)
              (Speck.reset now (rf i).resetR (generateThrowDirection vp tpl (rf i).throwR)
                (specks.getD (active + i) freshSpeck)).1).length = specks.length :=
            List.length_set specks _ _
          have h3 := ih (i + 1)
            (specks.set (active + i)
              (Speck.reset now (rf i).resetR (generateThrowDirection vp tpl (rf i).throwR)
                (specks.getD (active + i) freshSpeck)).1)
            (by omega) (by rw [hlen2]; omega)
          rw [hlen2] at h3
          exact h3
        · unfold throwSpecksLoop
          rw [if_pos hlt, if_neg h2]
          exact ⟨by simp only; omega, rfl⟩
      · have hceil : ⌈num⌉₊ ≤ i := Nat.ceil_le.mpr (le_of_not_lt hlt)
        unfold throwSpecksLoop
        rw [if_neg hlt]
        exact ⟨by simp only; omega, rfl⟩

/-- The `fill` revive loop started at counter `c ≤ min(⌈numSpecks⌉, len - active)`
terminates with counter exactly that minimum and preserves the pool length. -/
theorem fillLoop_spec (now : ℚ) (rf : ℕ → FillRands) (vp : ViewPort) (numSpecks : ℚ)
    (active : ℕ) :
    ∀ fuel c specks, ⌈numSpecks⌉₊ - c ≤ fuel → c ≤ min ⌈numSpecks⌉₊ (specks.length - active) →
      (fillLoop now rf vp numSpecks active fuel c specks).1 =
        min ⌈numSpecks⌉₊ (specks.length - active) ∧
      (fillLoop now rf vp numSpecks active fuel c specks).2.length = specks.length := by
  intro fuel
  induction fuel with
  | zero =>
      intro c specks hn hc
      have hceil : ⌈numSpecks⌉₊ ≤ c := by omega
      unfold fillLoop
      exact ⟨by simp only; omega, rfl⟩
  | succ n ih =>
      intro c specks hn hc
      by_cases hlt : (c : ℚ) < numSpecks
      · have hiceil : c < ⌈numSpecks⌉₊ := Nat.lt_ceil.mpr hlt
        by_cases h2 : active + c < specks.length
        · unfold fillLoop
          rw [if_pos hlt, if_pos h2]
          have hlen2 : (specks.set c
              (Speck.reset now (rf c).resetR
                { position := some (generateSpot vp (rf c).spot), inertia := none, color := none }
                (specks.getD c freshSpeck)).1).length = specks.length :=
            List.length_set specks _ _
          have h3 := ih (c + 1)
            (specks.set c
              (Speck.reset now (rf c).resetR
                { position := some (generateSpot vp (rf c).spot), inertia := none, color := none }
                (specks.getD c freshSpeck)).1)
            (by omega) (by rw [hlen2]; omega)
          rw [hlen2] at h3
          exact h3
        · unfold fillLoop
          rw [if_pos hlt, if_neg h2]
          exact ⟨by simp only; omega, rfl⟩
      · have hceil : ⌈numSpecks⌉₊ ≤ c := Nat.ceil_le.mpr (le_of_not_lt hlt)
        unfold fillLoop
        rw [if_neg hlt]
        exact ⟨by simp only; omega, rfl⟩

/-- The `_deleteSpecks` loop preserves the pool length. -/
theorem deleteSpecksLoop_length (num : ℚ) :
    ∀ fuel i specks, (deleteSpecksLoop num fuel i specks).length = specks.length := by
  intro fuel
  induction fuel with
  | zero =>
      intro i specks
      rfl
  | succ n ih =>
      intro i specks
      unfold deleteSpecksLoop
      by_cases hlt : (i : ℚ) < num
      · rw [if_pos hlt]
        by_cases h2 : jsIndexValid specks.length num
        · rw [if_pos h2, ih (i + 1) _]
          exact List.length_set specks _ _
        · rw [if_neg h2]
      · rw [if_neg hlt]

/-- `_deleteSpecks` and the shedding pass change neither the live count nor
the pool length. -/
theorem shedPass_active (dt : ℚ) (c : Cloud) :
    (Cloud.shedPass dt c).activeSpecks = c.activeSpecks := by
  unfold Cloud.shedPass Cloud.deleteSpecks
  split <;> rfl

theorem shedPass_length (dt : ℚ) (c : Cloud) :
    (Cloud.shedPass dt c).specks.length = c.specks.length := by
  unfold Cloud.shedPass Cloud.deleteSpecks
  split
  · exact deleteSpecksLoop_length _ (qCeilNat (Cloud.shedCount dt c)) 0 _
  · rfl

theorem shedPass_options (dt : ℚ) (c : Cloud) :
    (Cloud.shedPass dt c).options = c.options := by
  unfold Cloud.shedPass Cloud.deleteSpecks
  split <;> rfl

/-- The `_animate` per-speck loop: it never raises the live count, preserves
the pool length, and — given that every index below the cursor already holds
a live speck — leaves no dead speck below the final live count. -/
theorem animateLoop_spec (bs : List BreezeApp) (dt : ℚ) :
    ∀ fuel i active specks, active - i ≤ fuel → active ≤ specks.length →
      (∀ j, j < i → Speck.isDead (specks.getD j freshSpeck) = false) →
      (animateLoop bs dt fuel i active specks).2 ≤ active ∧
      (animateLoop bs dt fuel i active specks).1.length = specks.length ∧
      (∀ j, j < (animateLoop bs dt fuel i active specks).2 →
        Speck.isDead ((animateLoop bs dt fuel i active specks).1.getD j freshSpeck) = false) := by
  intro fuel
  induction fuel with
  | zero =>
      intro i active specks hn hlen hinv
      unfold animateLoop
      exact ⟨le_rfl, rfl, fun j hj => hinv j (by omega)⟩
  | succ n ih =>
      intro i active specks hn hlen hinv
      by_cases h : i < active
      · by_cases hdead :
          Speck.isDead (Speck.fly dt (applyBreezes bs (specks.getD i freshSpeck))) = true
        · unfold animateLoop
          rw [if_pos h, if_pos hdead]
          have hlen2 : ((specks.set i (specks.getD (active - 1) freshSpeck)).set (active - 1)
              (Speck.fly dt (applyBreezes bs (specks.getD i freshSpeck)))).length =
              specks.length := by
            rw [List.length_set, List.length_set]
          have hinv2 : ∀ j, j < i →
              Speck.isDead (((specks.set i (specks.getD (active - 1) freshSpeck)).set (active - 1)
                (Speck.fly dt (applyBreezes bs (specks.getD i freshSpeck)))).getD j freshSpeck) =
                false := by
            intro j hj
            rw [getD_set_ne _ _ _ _ _ (by omega), getD_set_ne _ _ _ _ _ (by omega)]
            exact hinv j hj
          have h3 := ih i (active - 1) _ (by omega) (by rw [hlen2]; omega) hinv2
          rw [hlen2] at h3
          exact ⟨by omega, h3.2.1, h3.2.2⟩
        · have hdead' : Speck.isDead (Speck.fly dt (applyBreezes bs (specks.getD i freshSpeck))) =
              false := by
            revert hdead
            cases Speck.isDead (Speck.fly dt (applyBreezes bs (specks.getD i freshSpeck))) <;> simp
          unfold animateLoop
          rw [if_pos h, if_neg (by rw [hdead']; exact fun hc => Bool.noConfusion hc)]
          have hlen2 : (specks.set i
              (Speck.fly dt (applyBreezes bs (specks.getD i freshSpeck)))).length =
              specks.length := List.length_set specks _ _
          have hinv2 : ∀ j, j < i + 1 →
              Speck.isDead ((specks.set i
                (Speck.fly dt (applyBreezes bs (specks.getD i freshSpeck)))).getD j freshSpeck) =
                false := by
            intro j hj
            by_cases hji : j = i
            · subst hji
              rw [getD_set_self _ _ _ _ (by omega)]
              exact hdead'
            · rw [getD_set_ne _ _ _ _ _ (fun hc => hji hc.symm)]
              exact hinv j (by omega)
          have h3 := ih (i + 1) active _ (by omega) (by rw [hlen2]; omega) hinv2
          rw [hlen2] at h3
          exact h3
      · unfold animateLoop
        rw [if_neg h]
        exact ⟨le_rfl, rfl, fun j hj => hinv j (by omega)⟩

/-- A sequence of `fly` (= `integrate`) calls, earliest first. -/
def flyAll (s : Speck) (dts : List ℚ) : Speck :=
  dts.foldl (fun t d => Speck.fly d t) s

theorem flyAll_lifeLeft (dts : List ℚ) :
    ∀ s l, s.attributes.lifeLeft = some l →
      (flyAll s dts).attributes.lifeLeft = some (l - dts.sum) := by
  induction dts with
  | nil =>
      intro s l hl
      simpa [flyAll] using hl
  | cons d dts ih =>
      intro s l hl
      have h1 : (Speck.fly d s).attributes.lifeLeft = some (l - d) := by
        rw [fly_lifeLeft, hl]
        rfl
      have h2 := ih (Speck.fly d s) (l - d) h1
      show (flyAll (Speck.fly d s) dts).attributes.lifeLeft = _
      rw [h2, List.sum_cons]
      ring_nf

theorem fly_of_isDead (s : Speck) (d : ℚ) (hdead : Speck.isDead s = true) (hd : 0 ≤ d) :
    (Speck.fly d s).attributes.position = s.attributes.position ∧
      Speck.isDead (Speck.fly d s) = true := by
  unfold Speck.isDead at hdead
  rcases hll : s.attributes.lifeLeft with _ | l
  · rw [hll] at hdead
    exact absurd hdead (by simp)
  · rw [hll] at hdead
    have hl0 : l ≤ 0 := of_decide_eq_true hdead
    have heq := fly_of_dead d s l hll (by linarith)
    refine ⟨by rw [heq], ?_⟩
    rw [heq]
    unfold Speck.isDead
    simp only
    exact decide_eq_true (by linarith)

theorem flyAll_of_isDead (dts : List ℚ) :
    ∀ s, Speck.isDead s = true → (∀ d ∈ dts, 0 ≤ d) →
      (flyAll s dts).attributes.position = s.attributes.position ∧
        Speck.isDead (flyAll s dts) = true := by
  induction dts with
  | nil => exact fun s hdead _ => ⟨rfl, hdead⟩
  | cons d dts ih =>
      intro s hdead hnn
      have h1 := fly_of_isDead s d hdead (hnn d (List.mem_cons_self d dts))
      have h2 := ih (Speck.fly d s) h1.2 (fun x hx => hnn x (List.mem_cons_of_mem d hx))
      exact ⟨h2.1.trans h1.1, h2.2⟩

/-- `throwSpecks` adds exactly `min(⌈rate*throwRate⌉, freeSlots)` to the live
count and preserves the pool length and the options. -/
theorem throwSpecks_active_eq (c : Cloud) (type : String) (rate now : ℚ)
    (rf : ℕ → SpawnRands) :
    (Cloud.throwSpecks type rate now rf c).activeSpecks =
      c.activeSpecks + min ⌈rate * c.options.throwRate⌉₊ (c.specks.length - c.activeSpecks) ∧
    (Cloud.throwSpecks type rate now rf c).specks.length = c.specks.length ∧
    (Cloud.throwSpecks type rate now rf c).options = c.options := by
  have h := throwSpecksLoop_spec now rf (c.throw type) c.viewPortSize
    (rate * c.options.throwRate) c.activeSpecks (qCeilNat (rate * c.options.throwRate))
    0 c.specks (by rw [qCeilNat_eq]; omega) (by omega)
  exact ⟨by show c.activeSpecks + _ = _; rw [h.1], h.2, rfl⟩

/-- `mkCloud` (construction plus `fill`) produces exactly `poolSize` slots
with at most `poolSize` of them live. -/
theorem mkCloud_bounds (opts : CloudOptions) (vp : ViewPort)
    (tpls : String → Option ThrowTemplate) (now : ℚ) (rf : ℕ → FillRands) :
    (mkCloud opts vp tpls now rf).specks.length = opts.poolSize ∧
    (mkCloud opts vp tpls now rf).activeSpecks ≤ opts.poolSize ∧
    (mkCloud opts vp tpls now rf).options = opts := by
  have h := fillLoop_spec now rf vp opts.specks 0 (qCeilNat opts.specks) 0
    (List.replicate opts.poolSize freshSpeck) (by rw [qCeilNat_eq]; omega) (by omega)
  have hlen : (List.replicate opts.poolSize freshSpeck).length = opts.poolSize :=
    List.length_replicate _ _
  refine ⟨?_, ?_, rfl⟩
  · show (fillLoop now rf vp opts.specks 0 (qCeilNat opts.specks) 0
      (List.replicate opts.poolSize freshSpeck)).2.length = opts.poolSize
    rw [h.2, hlen]
  · show 0 + (fillLoop now rf vp opts.specks 0 (qCeilNat opts.specks) 0
      (List.replicate opts.poolSize freshSpeck)).1 ≤ opts.poolSize
    rw [h.1, hlen]
    omega

/-- One `_animate` pass never raises the live count and preserves the pool
length and the options (given the live-count/capacity invariant on entry). -/
theorem animateStep_bounds (bs : List BreezeApp) (dt : ℚ) (c : Cloud)
    (h : c.activeSpecks ≤ c.specks.length) :
    (Cloud.animateStep bs dt c).activeSpecks ≤ c.activeSpecks ∧
    (Cloud.animateStep bs dt c).specks.length = c.specks.length ∧
    (Cloud.animateStep bs dt c).options = c.options := by
  have hlen : (Cloud.shedPass dt c).activeSpecks ≤ (Cloud.shedPass dt c).specks.length := by
    rw [shedPass_active, shedPass_length]
    exact h
  have hspec := animateLoop_spec bs dt (Cloud.shedPass dt c).activeSpecks 0
    (Cloud.shedPass dt c).activeSpecks (Cloud.shedPass dt c).specks (by omega) hlen
    (fun j hj => absurd hj (Nat.not_lt_zero j))
  refine ⟨?_, ?_, ?_⟩
  · show (animateLoop bs dt (Cloud.shedPass dt c).activeSpecks 0
      (Cloud.shedPass dt c).activeSpecks (Cloud.shedPass dt c).specks).2 ≤ c.activeSpecks
    rw [← shedPass_active dt c]
    exact hspec.1
  · show (animateLoop bs dt (Cloud.shedPass dt c).activeSpecks 0
      (Cloud.shedPass dt c).activeSpecks (Cloud.shedPass dt c).specks).1.length =
      c.specks.length
    rw [hspec.2.1, shedPass_length]
  · show (Cloud.shedPass dt c).options = c.options
    exact shedPass_options dt c

/-! ### The claims -/

section ClaimTheorems

attribute [local semireducible] Rat.add Rat.mul Rat.sub Rat.inv

/-- Claim C1, counterexample: with `throwRate = 1`, an empty one-slot pool
(one free slot) and intensity fraction `1/2`, `throwSpecks` activates one
particle, although the claimed count `min(⌊1/2 × 1⌋, freeSlots)` is `0`: the
JS `for (i = 0; i < num; i++)` loop rounds a fractional batch size up, not
down. -/
theorem throwSpecks_floor_counterexample :
    (Cloud.throwSpecks ("bitBass") (1/2) 0 sampleSpawnRands sampleCloudFree).activeSpecks -
      sampleCloudFree.activeSpecks = 1 ∧
    min ⌊(1/2 : ℚ) * 1⌋₊ (sampleCloudFree.specks.length - sampleCloudFree.activeSpecks) = 0 := by
  constructor
  · decide
  · rw [Nat.floor_eq_zero.mpr (by norm_num)]
    decide

/-- Claim C1, amended: for every pool state, group name and intensity
fraction `I`, `spawnBatch(g, I)` = `throwSpecks` activates exactly
`min(⌈I × throwRate⌉, freeSlots)` particles — a fractional batch size is
rounded up by the loop guard, not down — increasing `activeSpecks` by exactly
that amount (never more) and leaving the pool length unchanged. -/
theorem throwSpecks_count (c : Cloud) (type : String) (rate now : ℚ)
    (rf : ℕ → SpawnRands) :
    (Cloud.throwSpecks type rate now rf c).activeSpecks =
      c.activeSpecks + min ⌈rate * c.options.throwRate⌉₊ (c.specks.length - c.activeSpecks) ∧
    (Cloud.throwSpecks type rate now rf c).specks.length = c.specks.length :=
  ⟨(throwSpecks_active_eq c type rate now rf).1, (throwSpecks_active_eq c type rate now rf).2.1⟩

/-- Claim C2: immediately after an `_animate` pass (`step`), no speck at an
index below `activeSpecks` is dead: a speck that dies is swapped with the
speck at `activeSpecks - 1`, the live count is decremented and the same index
is re-examined, so back-to-back deaths cannot leave a dead speck in the
active range.  The hypothesis is the capacity invariant the pool itself
maintains in every reachable state. -/
theorem animate_active_range_no_dead (bs : List BreezeApp) (dt : ℚ) (c : Cloud)
    (h : c.activeSpecks ≤ c.specks.length) :
    ∀ j, j < (Cloud.animateStep bs dt c).activeSpecks →
      Speck.isDead ((Cloud.animateStep bs dt c).specks.getD j freshSpeck) = false := by
  intro j hj
  have hlen : (Cloud.shedPass dt c).activeSpecks ≤ (Cloud.shedPass dt c).specks.length := by
    rw [shedPass_active, shedPass_length]
    exact h
  have hspec := animateLoop_spec bs dt (Cloud.shedPass dt c).activeSpecks 0
    (Cloud.shedPass dt c).activeSpecks (Cloud.shedPass dt c).specks (by omega) hlen
    (fun k hk => absurd hk (Nat.not_lt_zero k))
  exact hspec.2.2 j hj

/-- Witness for C2: a pool with one live speck, stepped by `dt = 0.01`, has
no dead speck in its active prefix. -/
theorem animate_active_range_no_dead_witness :
    Speck.isDead ((Cloud.animateStep [] (1/100) sampleCloudAlive).specks.getD 0 freshSpeck) =
      false :=
  animate_active_range_no_dead [] (1/100) sampleCloudAlive (by decide) 0 (by decide)

/-- Claim C3, the code evaluated at the failing input: with `maxLag = 0.03`,
`maxToDelete = 0.05`, measured `dt = 0.06` and 1000 live particles, the shed
pass computes `numToDelete = 50`, but `_deleteSpecks` reads `specks[num]`
instead of `specks[i]` inside its loop, so all fifty iterations shorten the
single particle at index 50: the front particles (indices 0 and 49) keep
their remaining life of 4 while index 50 is clamped to the 0.4 flash window —
not `k = 50` distinct particles from the front as the claim (and the
function's own doc comment) state.  A `dt` below `maxLag` sheds nothing, as
claimed. -/
theorem deleteSpecks_shortens_wrong_slot :
    Cloud.shedCount (6/100) sampleCloud1000 = 50 ∧
    ((Cloud.shedPass (6/100) sampleCloud1000).specks.getD 0 freshSpeck).attributes.lifeLeft =
      some 4 ∧
    ((Cloud.shedPass (6/100) sampleCloud1000).specks.getD 49 freshSpeck).attributes.lifeLeft =
      some 4 ∧
    ((Cloud.shedPass (6/100) sampleCloud1000).specks.getD 50 freshSpeck).attributes.lifeLeft =
      some (2/5) ∧
    (Cloud.shedPass (2/100) sampleCloud1000).specks = sampleCloud1000.specks := by
  refine ⟨?_, ?_, ?_, ?_, ?_⟩ <;> set_option maxRecDepth 1000000 in decide

/-- Claim C5, the code evaluated at the failing input: `throwSpecks` with a
group name that has no registered template (`generateThrowDirection` returns
the empty object) still resets the next free speck — giving it a fresh life
(here 3 s from the zero draws) and *no position* — and increments
`activeSpecks`; it is not the claimed no-op.  (The positionless speck then
makes the next animation frame throw a `TypeError` when `fly` dereferences
`position`.) -/
theorem throwSpecks_unknown_group_activates :
    (Cloud.throwSpecks ("mystery") 1 0 sampleSpawnRands sampleCloudNoTpl).activeSpecks = 1 ∧
    ((Cloud.throwSpecks ("mystery") 1 0 sampleSpawnRands
        sampleCloudNoTpl).specks.getD 0 freshSpeck).attributes.lifeLeft = some 3 ∧
    ((Cloud.throwSpecks ("mystery") 1 0 sampleSpawnRands
        sampleCloudNoTpl).specks.getD 0 freshSpeck).attributes.position = none ∧
    sampleCloudNoTpl.activeSpecks = 0 ∧
    (sampleCloudNoTpl.specks.getD 0 freshSpeck).attributes.lifeLeft = none := by
  refine ⟨?_, ?_, ?_, ?_, ?_⟩ <;> decide

/-- Claim C9: every pool state reachable from construction/`fill` through any
interleaving of `throwSpecks` batches and `_animate` steps keeps exactly
`poolSize` slots and satisfies `0 ≤ activeSpecks ≤ poolSize` (the lower bound
by the ℕ counter type, matching the source's counter which is only ever
decremented under the `i < activeSpecks` guard). -/
theorem reach_active_le_capacity (c : Cloud) (h : Reach c) :
    c.specks.length = c.options.poolSize ∧ c.activeSpecks ≤ c.options.poolSize := by
  induction h with
  | fillInit opts vp tpls now rf =>
      have h := mkCloud_bounds opts vp tpls now rf
      rw [h.2.2]
      exact ⟨h.1, h.2.1⟩
  | throwStep c type rate now rf hr ih =>
      have h := throwSpecks_active_eq c type rate now rf
      rw [h.2.2, h.2.1, h.1]
      exact ⟨ih.1, by omega⟩
  | animStep c bs dt hr ih =>
      have h := animateStep_bounds bs dt c (by omega)
      rw [h.2.2, h.2.1]
      exact ⟨ih.1, by omega⟩

/-- Witness for C9: a freshly filled two-slot pool with one starter speck
satisfies the capacity bound. -/
theorem reach_active_le_capacity_witness :
    (mkCloud ⟨2, 1, 1, 3/100, 1/20⟩ ⟨100, 100⟩ (fun _ => none) 0
        sampleFillRands).activeSpecks ≤
      (mkCloud ⟨2, 1, 1, 3/100, 1/20⟩ ⟨100, 100⟩ (fun _ => none) 0
        sampleFillRands).options.poolSize :=
  (reach_active_le_capacity _ (Reach.fillInit _ _ _ _ _)).2

/-- A helper for C7: when the head of the post-push queue is not yet due,
`setForce` keeps the whole queue and stores exactly the direct vector. -/
theorem setForce_not_due (now : ℚ) (d b : Vec2) (s : Speck) (w0 : WaveEntry)
    (rest : List WaveEntry)
    (hw : s.wave ++ [⟨now + Speck.waveLag * 1000, b⟩] = w0 :: rest)
    (hc : ¬ w0.time < now + Speck.wavePrecision * 1000) :
    Speck.setForce now d b s =
      { s with
        wave := w0 :: rest
        force := { s.force with x := d.x, y := d.y } } := by
  unfold Speck.setForce
  rw [hw]
  dsimp only
  rw [if_neg hc]

/-- Claim C7: `setForce(direct, back)` pushes a wave entry with trigger time
`now + waveLag·1000` and power `back`; with an empty queue and no time
advancing between two calls, the earliest entry is not yet due (the wave lag
far exceeds the precision tolerance), so the second call's pending force is
exactly its own direct vector and the first call's entry is still queued,
unconsumed, at the head. -/
theorem setForce_second_call_own_direct (s : Speck) (now : ℚ) (d1 b1 d2 b2 : Vec2)
    (h : s.wave = []) :
    (Speck.setForce now d1 b1 s).wave = [⟨now + Speck.waveLag * 1000, b1⟩] ∧
    (Speck.setForce now d1 b1 s).force.x = d1.x ∧
    (Speck.setForce now d1 b1 s).force.y = d1.y ∧
    (Speck.setForce now d2 b2 (Speck.setForce now d1 b1 s)).force.x = d2.x ∧
    (Speck.setForce now d2 b2 (Speck.setForce now d1 b1 s)).force.y = d2.y ∧
    (Speck.setForce now d2 b2 (Speck.setForce now d1 b1 s)).wave =
      [⟨now + Speck.waveLag * 1000, b1⟩, ⟨now + Speck.waveLag * 1000, b2⟩] := by
  have hlagnum : (Speck.wavePrecision * 1000 : ℚ) ≤ Speck.waveLag * 1000 := by
    unfold Speck.waveLag Speck.wavePrecision
    norm_num
  have hc1 : ∀ bb : Vec2,
      ¬ ((⟨now + Speck.waveLag * 1000, bb⟩ : WaveEntry).time <
        now + Speck.wavePrecision * 1000) := by
    intro bb hcon
    simp only at hcon
    linarith
  have h1 := setForce_not_due now d1 b1 s ⟨now + Speck.waveLag * 1000, b1⟩ []
    (by rw [h]; rfl) (hc1 b1)
  have hw1 : (Speck.setForce now d1 b1 s).wave = [⟨now + Speck.waveLag * 1000, b1⟩] := by
    rw [h1]
  have h2 := setForce_not_due now d2 b2 (Speck.setForce now d1 b1 s)
    ⟨now + Speck.waveLag * 1000, b1⟩ [⟨now + Speck.waveLag * 1000, b2⟩]
    (by rw [hw1]; rfl) (hc1 b1)
  exact ⟨hw1, by rw [h1], by rw [h1], by rw [h2], by rw [h2], by rw [h2]⟩

/-- Witness for C7: two immediate pushes on a fresh speck leave the second
call's force vector and both wave entries queued. -/
theorem setForce_second_call_own_direct_witness :
    (Speck.setForce 0 ⟨3, 4⟩ ⟨5, 6⟩ (Speck.setForce 0 ⟨1, 2⟩ ⟨7, 8⟩ freshSpeck)).force.x = 3 ∧
    (Speck.setForce 0 ⟨3, 4⟩ ⟨5, 6⟩ (Speck.setForce 0 ⟨1, 2⟩ ⟨7, 8⟩ freshSpeck)).wave =
      [⟨0 + Speck.waveLag * 1000, ⟨7, 8⟩⟩, ⟨0 + Speck.waveLag * 1000, ⟨5, 6⟩⟩] := by
  have h := setForce_second_call_own_direct freshSpeck 0 ⟨1, 2⟩ ⟨7, 8⟩ ⟨3, 4⟩ ⟨5, 6⟩ rfl
  exact ⟨h.2.2.2.1, h.2.2.2.2.2⟩

/-- Claim C8: `fly` (= `integrate`) first subtracts `dt` from the remaining
life and returns with the position unchanged when the result is ≤ 0; hence
after any call sequence whose cumulative `dt` reaches the total life span
(`attributes.life`, with the standing invariant `lifeLeft ≤ life`), the speck
is dead and every further sequence of non-negative-`dt` calls leaves its
position unchanged. -/
theorem fly_death_and_freeze (s : Speck) (l L : ℚ) (dts : List ℚ)
    (hl : s.attributes.lifeLeft = some l) (hL : s.attributes.life = some L)
    (hlL : l ≤ L) (hsum : L ≤ dts.sum) :
    (∀ t : Speck, ∀ dt l', t.attributes.lifeLeft = some l' → l' - dt ≤ 0 →
        (Speck.fly dt t).attributes.position = t.attributes.position) ∧
    Speck.isDead (flyAll s dts) = true ∧
    (∀ ds : List ℚ, (∀ x ∈ ds, 0 ≤ x) →
        (flyAll (flyAll s dts) ds).attributes.position = (flyAll s dts).attributes.position) := by
  have hdead : Speck.isDead (flyAll s dts) = true := by
    have hll := flyAll_lifeLeft dts s l hl
    rw [isDead_some _ _ hll]
    exact decide_eq_true (by linarith)
  refine ⟨?_, hdead, ?_⟩
  · intro t dt l' hl' hd
    rw [fly_of_dead dt t l' hl' hd]
  · intro ds hnn
    exact (flyAll_of_isDead ds (flyAll s dts) hdead hnn).1

/-- Witness for C8: a speck with 4 s of its 5 s life left, integrated once
with `dt = 5 ≥` its total life, is dead and a further `dt = 1` call does not
move it. -/
theorem fly_death_and_freeze_witness :
    Speck.isDead (flyAll sampleSpeckAlive [5]) = true ∧
    (flyAll (flyAll sampleSpeckAlive [5]) [1]).attributes.position =
      (flyAll sampleSpeckAlive [5]).attributes.position := by
  have h := fly_death_and_freeze sampleSpeckAlive 4 5 [5] rfl rfl (by norm_num) (by simp)
  exact ⟨h.2.1, h.2.2 [1] (by norm_num)⟩

/-- Claim C10: `reset` on options that carry an `inertia` field mutates the
caller's options object — after the call the object no longer has the field
(modelled by the returned options) — while the speck's own inertia is a
per-axis copy of the supplied vector (in this pure embedding the copy built
by `_extend` is by construction independent of the caller's object). -/
theorem reset_deletes_inertia (s : Speck) (now : ℚ) (r : ResetRands) (o : ResetOptions)
    (v : Vec3) (h : o.inertia = some v) :
    (Speck.reset now r o s).2 = { o with inertia := none } ∧
    (Speck.reset now r o s).1.inertia = ⟨v.x, v.y, v.z⟩ := by
  unfold Speck.reset
  rw [h]
  exact ⟨rfl, rfl⟩

/-- Witness for C10: resetting with an explicit inertia `(1, 2, 3)` strips the
field from the options and installs the copied vector. -/
theorem reset_deletes_inertia_witness :
    (Speck.reset 0 ⟨0, 0, 0, ⟨0, 0, 0⟩⟩ ⟨none, some ⟨1, 2, 3⟩, none⟩ freshSpeck).2 =
      (⟨none, none, none⟩ : ResetOptions) ∧
    (Speck.reset 0 ⟨0, 0, 0, ⟨0, 0, 0⟩⟩ ⟨none, some ⟨1, 2, 3⟩, none⟩ freshSpeck).1.inertia =
      (⟨1, 2, 3⟩ : Vec3) := by
  have h := reset_deletes_inertia freshSpeck 0 ⟨0, 0, 0, ⟨0, 0, 0⟩⟩ ⟨none, some ⟨1, 2, 3⟩, none⟩
    ⟨1, 2, 3⟩ rfl
  exact ⟨h.1, h.2⟩

/-- Claim C4, counterexample: with direction `y`, music factor 4, spread range
[0.2, 0.5], magnitude 1 and the random draw 0, `setPower` stores the *full*
force 4 into the primary-axis power, but the claim's "remainder"
`force - spread = 4 - 0.8 = 3.2` is a different number. -/
theorem setPower_remainder_counterexample :
    (Breeze.setPower 1 0 sampleBreezeY).attributes.power.y = 4 ∧
    (1 : ℝ) * 4 - 1 * 4 * (0 * (1/2 - 1/5) + 1/5) ≠ 4 := by
  constructor
  · show (if Axis.y = Axis.y then (1 : ℝ) * sampleBreezeY.attributes.musicFactor else 0) = 4
    rw [if_pos rfl]
    show (1 : ℝ) * 4 = 4
    norm_num
  · norm_num

/-- Claim C4, amended: `setPower(m)` computes `force = m × musicFactor` and a
random spread fraction in `[waveSpreadMin, waveSpreadMax)` of it; it assigns
the **full force** to the primary-axis power (orthogonal-axis power zero) and
stores the remainder `force − spread` as the primary-axis back-power with the
spread as the orthogonal-axis back-power. -/
theorem setPower_full_force_split (b : Breeze) (overall rand : ℝ) :
    (Breeze.setPower overall rand b).attributes.power.x =
      (if b.direction = Axis.x then overall * b.attributes.musicFactor else 0) ∧
    (Breeze.setPower overall rand b).attributes.power.y =
      (if b.direction = Axis.y then overall * b.attributes.musicFactor else 0) ∧
    (Breeze.setPower overall rand b).backPower.x =
      (if b.direction = Axis.x then
        overall * b.attributes.musicFactor -
          overall * b.attributes.musicFactor *
            (rand * (b.attributes.waveSpreadMax - b.attributes.waveSpreadMin) +
              b.attributes.waveSpreadMin)
      else
        overall * b.attributes.musicFactor *
          (rand * (b.attributes.waveSpreadMax - b.attributes.waveSpreadMin) +
            b.attributes.waveSpreadMin)) ∧
    (Breeze.setPower overall rand b).backPower.y =
      (if b.direction = Axis.y then
        overall * b.attributes.musicFactor -
          overall * b.attributes.musicFactor *
            (rand * (b.attributes.waveSpreadMax - b.attributes.waveSpreadMin) +
              b.attributes.waveSpreadMin)
      else
        overall * b.attributes.musicFactor *
          (rand * (b.attributes.waveSpreadMax - b.attributes.waveSpreadMin) +
            b.attributes.waveSpreadMin)) :=
  ⟨rfl, rfl, rfl, rfl⟩

/-- Claim C6, counterexample: the attenuation formula `k = √|d/L − 1|` does
not hold for every clamped distance: a particle 1.5 spans from the `up`
field's origin (distance 3, span 2) receives the direct force `-100` (the
code keeps `k = 1` whenever `distance < full` fails), while the claimed
formula would give `-√(1/2)·100 ≈ -70.7`. -/
theorem findForce_beyond_span_counterexample :
    (Breeze.findForce sampleBreezeUp Axis.y 3 2 true).direct = -100 ∧
    -(Real.sqrt |(3 : ℝ)/2 - 1| * 100) ≠ -100 := by
  constructor
  · show (Breeze.findForce sampleBreezeUp Axis.y 3 2 true).direct = -100
    unfold Breeze.findForce
    rw [if_neg (by norm_num : ¬ (3 : ℝ) < 0), if_pos rfl]
    dsimp only
    rw [if_neg (by norm_num : ¬ (3 : ℝ) < 2),
      if_pos (Or.inl rfl : sampleBreezeUp.attributes.btype = Side.up ∨
        sampleBreezeUp.attributes.btype = Side.left)]
    show (-1 : ℝ) * 100 = -100
    norm_num
  · have habs : |(3 : ℝ)/2 - 1| = 1/2 := by
      rw [abs_of_pos] <;> norm_num
    rw [habs]
    have hlt : Real.sqrt (1/2) < 1 := by
      have h := Real.sqrt_lt_sqrt (by norm_num : (0:ℝ) ≤ 1/2) (by norm_num : (1:ℝ)/2 < 1)
      rwa [Real.sqrt_one] at h
    intro hcon
    have h100 : Real.sqrt (1/2) * 100 < 100 := by nlinarith
    have : Real.sqrt (1/2) * 100 = 100 := by linarith [neg_injective hcon]
    linarith

/-- Claim C6, amended: on the field's own axis, for every clamped distance
`d ≥ 0`, the direct force is `k × fieldPower` with
`k = √|d/L − 1|` **when `d < L`** and `k = 1` otherwise, sign-flipped for the
`up`/`left` origin sides; at the origin edge (`d = 0`) this yields the full
power (Scenario B: magnitude exactly 100). -/
theorem findForce_attenuation (b : Breeze) (axis : Axis) (d full : ℝ) (rs : Bool)
    (hax : b.direction = axis) (hd : 0 ≤ d) :
    (Breeze.findForce b axis d full rs).direct =
      (if b.attributes.btype = Side.up ∨ b.attributes.btype = Side.left then -1 else 1) *
        (if d < full then Real.sqrt |d / full - 1| else 1) *
        (b.attributes.power.get axis) := by
  unfold Breeze.findForce
  rw [if_neg (not_lt.mpr hd), if_pos hax]
  dsimp only
  by_cases hul : b.attributes.btype = Side.up ∨ b.attributes.btype = Side.left
  · rw [if_pos hul, if_pos hul]
    by_cases hdf : d < full
    · rw [if_pos hdf]
      ring
    · rw [if_neg hdf]
      ring
  · rw [if_neg hul, if_neg hul]
    by_cases hdf : d < full
    · rw [if_pos hdf]
      ring
    · rw [if_neg hdf]
      ring

/-- Witness for C6 (Scenario B): the `up` field with `power.y = 100` exerts
direct force `-100` (magnitude exactly 100, sign per the origin-side rule) on
a particle at the origin edge, distance 0. -/
theorem findForce_attenuation_witness :
    (Breeze.findForce sampleBreezeUp Axis.y 0 2 true).direct = -100 := by
  have h := findForce_attenuation sampleBreezeUp Axis.y 0 2 true rfl le_rfl
  rw [h]
  rw [if_pos (Or.inl rfl : sampleBreezeUp.attributes.btype = Side.up ∨
    sampleBreezeUp.attributes.btype = Side.left)]
  rw [if_pos (by norm_num : (0 : ℝ) < 2)]
  have habs : |(0 : ℝ) / 2 - 1| = 1 := by
    norm_num
  rw [habs, Real.sqrt_one]
  show (-1 : ℝ) * 1 * 100 = -100
  norm_num

end ClaimTheorems

end Dust
